import Mathlib

/-!
Shallow embedding of the TrafficSimulator engine (src/engine.py).

Conventions of the embedding:
* Node ids are `ℕ` (OSM node ids are non-negative integers).
* Python floats are modelled as exact rationals `ℚ`.
* `random.random()` draws are modelled as explicit `ℚ` parameters (the tick
  loop receives an oracle `rng : ℕ → ℕ → ℚ` giving the draw for tick `i` and
  agent position `j`; each (tick, agent) pair performs at most one draw).
* The external routing library (osmnx / networkx `shortest_path`,
  `path_weight`) is passed as an oracle parameter; everything that engine.py
  itself computes is translated directly.
* Python dict lookups with defaults become `Option`/`getD`; the occupancy
  dict (whose reads always use `.get(key, 0)`) is modelled as a total
  function `ℕ × ℕ → ℚ` built from the constant-zero function.
-/

/-- Attribute dictionary of one graph edge.  engine.py reads `length`
(`data.get('length', 1.0)`), `capacity` (`edgeData.get('capacity', 5)`) and
`geometry`; absent keys are `none`.  A present edge is modelled as having a
non-empty (truthy) attribute dict, as OSM edges always carry attributes. -/
structure EdgeData where
  length : Option ℚ := none
  capacity : Option ℕ := none
  geometry : Option (List (ℚ × ℚ)) := none
deriving DecidableEq

/-- One keyed edge of a networkx MultiDiGraph. -/
structure Edge where
  u : ℕ
  v : ℕ
  key : ℕ
  data : EdgeData
deriving DecidableEq

/-- A road graph: node ids with coordinate accessors (`graph.nodes[n]['x']`,
`['y']`) and a keyed edge list. -/
structure Graph where
  nodeIds : List ℕ
  nodeX : ℕ → ℚ
  nodeY : ℕ → ℚ
  edges : List Edge

/-- `graph.degree(u)` of a networkx MultiDiGraph: in-degree plus out-degree,
counted with edge multiplicity. -/
def degree (g : Graph) (n : ℕ) : ℕ :=
  (g.edges.filter (fun e => e.u == n)).length +
    (g.edges.filter (fun e => e.v == n)).length

/-- `graph.get_edge_data(u, v, k)`: the attribute dict of the edge keyed `k`
from `u` to `v`, or `None` when that edge is absent. -/
def getEdgeData (g : Graph) (u v k : ℕ) : Option EdgeData :=
  (g.edges.find? (fun e => e.u == u && e.v == v && e.key == k)).map (fun e => e.data)

/-- The `Agent` class of engine.py (lines 18-47).  `currentNode` is kept even
though it is derivable, because `Agent.step` compares it against the previous
node; `isHeavy` is the attribute attached in `PopulationAgentsParallel`
(line 137), read back with `getattr(agent, 'isHeavy', False)`, so it defaults
to `false`. -/
structure Agent where
  id : String
  path : List ℕ
  pathCoords : List (ℚ × ℚ)
  type : String
  active : Bool
  currentStep : ℕ
  currentNode : Option ℕ
  stuckTicks : ℕ
  ticksAlive : ℕ
  isHeavy : Bool
deriving DecidableEq

/-- `Agent.__init__` (engine.py lines 20-29): `active = path and len(path) > 1`,
`currentNode = path[0] if active else None`, counters start at zero. -/
def mkAgent (agentId : String) (path : List ℕ) (pathCoords : List (ℚ × ℚ))
    (typeStr : String) : Agent :=
  let act : Bool := decide (1 < path.length)
  { id := agentId
    path := path
    pathCoords := pathCoords
    type := typeStr
    active := act
    currentStep := 0
    currentNode := if act then path.head? else none
    stuckTicks := 0
    ticksAlive := 0
    isHeavy := false }

/-- `Agent.step` (engine.py lines 31-47).  Note `len(self.path) - 1` is
Python integer arithmetic; for `path = []` the comparison `0 < -1` is false
and ℕ truncated subtraction gives the same branch. -/
def Agent.step (a : Agent) : Agent :=
  if a.active = false then a
  else
    let prevNode := a.currentNode
    if a.currentStep < a.path.length - 1 then
      let cs := a.currentStep + 1
      let cn := a.path.get? cs
      let a1 := { a with currentStep := cs, currentNode := cn }
      let a2 := if cn ≠ prevNode then { a1 with stuckTicks := 0 } else a1
      if cs = a.path.length - 1 then { a2 with active := false } else a2
    else { a with active := false }

/-- The edge the agent is about to traverse:
`u, v = agent.path[agent.currentStep], agent.path[agent.currentStep + 1]`
(engine.py lines 190 and 210; guarded in both call sites by
`currentStep < len(path) - 1`, which makes both indices in range, so the
`getD` defaults are never taken there). -/
def nextEdge (a : Agent) : ℕ × ℕ :=
  (a.path.getD a.currentStep 0, a.path.getD (a.currentStep + 1) 0)

/-- `IsGreenLight` (engine.py lines 232-234). -/
def isGreenLight (u v tick : ℕ) : Bool :=
  let cycle := 30
  if (u + v) % 2 = 0 then decide (tick % cycle < 15) else decide (15 ≤ tick % cycle)

/-- Body of the loop of `GetEdgeOccupancy` (engine.py lines 208-212):
`occupancy[(u, v)] = occupancy.get((u, v), 0) + weight` for every active
agent with a next edge, where `weight = 3.0 if getattr(agent, 'isHeavy', False) else 1.0`. -/
def occStep (occ : ℕ × ℕ → ℚ) (a : Agent) : ℕ × ℕ → ℚ :=
  if a.active = true ∧ a.currentStep < a.path.length - 1 then
    let e := nextEdge a
    let w : ℚ := if a.isHeavy then 3 else 1
    Function.update occ e (occ e + w)
  else occ

/-- `GetEdgeOccupancy` (engine.py lines 205-213), as the total lookup
function of the resulting dict (reads use `occupancy.get((u, v), 0)`). -/
def getEdgeOccupancy (allAgents : List Agent) : ℕ × ℕ → ℚ :=
  allAgents.foldl occStep (fun _ => 0)

/-- `ValidateMovement` (engine.py lines 181-203).  `r` is the value of the
`random.random()` draw of line 200; `occupancy.get((u, v), 0)` is the total
function `occupancy`. -/
def validateMovement (agent : Agent) (g : Graph) (occupancy : ℕ × ℕ → ℚ)
    (tick : ℕ) (r : ℚ) : Bool :=
  if agent.type ≠ "Vehicle" ∧ agent.type ≠ "HeavyVehicle" then true
  else if agent.path.length - 1 ≤ agent.currentStep then false
  else
    let u := (nextEdge agent).1
    let v := (nextEdge agent).2
    if 2 < degree g u ∧ isGreenLight u v tick = false then false
    else
      match getEdgeData g u v 0 with
      | some edgeData =>
        let capacity : ℚ := match edgeData.capacity with | some c => (c : ℚ) | none => 5
        if capacity < occupancy (u, v) ∧ r < 7 / 10 then false else true
      | none => true

/-- One simulation output row (engine.py lines 171-178). -/
structure SimRecord where
  tick : ℕ
  agent_id : String
  lat : ℚ
  lon : ℚ
  type : String
  status : String
deriving DecidableEq

/-- The per-agent body of the tick loop (engine.py lines 151-178): skip
inactive agents; age and budget/stuck check; movement attempt (cars step
twice); record emission when the agent is still active afterwards. -/
def processAgent (g : Graph) (duration : ℕ) (occ : ℕ × ℕ → ℚ) (tick : ℕ)
    (r : ℚ) (a : Agent) : Agent × Option SimRecord :=
  if a.active = false then (a, none)
  else
    let a1 := { a with ticksAlive := a.ticksAlive + 1 }
    if duration < a1.ticksAlive ∨ 15 < a1.stuckTicks then
      ({ a1 with active := false }, none)
    else
      let canMove := validateMovement a1 g occ tick r
      let a2 :=
        if canMove then
          let s := a1.step
          if s.type = "Vehicle" ∧ s.active = true then s.step else s
        else { a1 with stuckTicks := a1.stuckTicks + 1 }
      if a2.active = true then
        let c := a2.pathCoords.getD a2.currentStep (0, 0)
        (a2, some { tick := tick
                    agent_id := a2.id
                    lat := c.1
                    lon := c.2
                    type := a2.type
                    status := if canMove then "moving" else "congested" })
      else (a2, none)

/-- One tick of the inner `for agent in allAgents` loop (engine.py
lines 151-178), processing the agents in list order; `j` is the position of
the next agent, used to index the random oracle. -/
def runAgents (g : Graph) (duration : ℕ) (occ : ℕ × ℕ → ℚ) (tick : ℕ)
    (rng : ℕ → ℚ) : List Agent → ℕ → List Agent × List SimRecord
  | [], _ => ([], [])
  | a :: rest, j =>
    let p := processAgent g duration occ tick (rng j) a
    let q := runAgents g duration occ tick rng rest (j + 1)
    (p.1 :: q.1, p.2.toList ++ q.2)

/-- The outer `for i in range(duration)` loop of `RunTicks` (engine.py
lines 145-178), generalized to start at tick `i` and run `n` iterations so
that properties of truncated runs can be stated.  The occupancy snapshot is
refreshed when `i % 5 == 0` and otherwise carried over (the `locals()`
fallback of line 149-150 can only yield the empty dict, i.e. the constant-0
function, which is the initial value used by `runTicks`). -/
def runTicksFrom (g : Graph) (duration : ℕ) (rng : ℕ → ℕ → ℚ) :
    ℕ → ℕ → (ℕ × ℕ → ℚ) → List Agent → List Agent × List SimRecord
  | _, 0, _, agents => (agents, [])
  | i, n + 1, occ, agents =>
    let occ1 := if i % 5 = 0 then getEdgeOccupancy agents else occ
    let p := runAgents g duration occ1 i (rng i) agents 0
    let q := runTicksFrom g duration rng (i + 1) n occ1 p.1
    (q.1, p.2 ++ q.2)

/-- `RunTicks` (engine.py lines 142-179): run `duration` ticks from tick 0
and return the collected `simulationData`.  The agents are mutated in place
in Python; their post-loop state is the first component of `runTicksFrom`. -/
def runTicks (allAgents : List Agent) (duration : ℕ) (g : Graph)
    (rng : ℕ → ℕ → ℚ) : List SimRecord :=
  (runTicksFrom g duration rng 0 duration (fun _ => 0) allAgents).2

/-- Result dict built by `ComputePathWorker` (engine.py line 70). -/
structure RouteResult where
  id : String
  path : List ℕ
  coords : List (ℚ × ℚ)
  type : String
deriving DecidableEq

/-- `ComputePathWorker` (engine.py lines 58-73).  The osmnx/networkx calls
`ox.shortest_path` and `nx.path_weight` are oracles `sp` and `pw`
(`sp o t = none` covers both a `None` path and the swallowed exception of the
bare `except`); `nodeCoord n` is `(workerGraph.nodes[n]['y'], workerGraph.nodes[n]['x'])`.
Python `if path:` is list truthiness: non-`None` and non-empty. -/
def computePathWorker (sp : ℕ → ℕ → Option (List ℕ)) (pw : List ℕ → ℚ)
    (nodeCoord : ℕ → ℚ × ℚ) (agentId : String) (origin target : ℕ)
    (typeStr : String) : Option RouteResult :=
  match sp origin target with
  | some path =>
    if path ≠ [] ∧ pw path < 500000 then
      some { id := agentId, path := path, coords := path.map nodeCoord, type := typeStr }
    else none
  | none => none

/-- Agent construction from one worker result (engine.py lines 136-137):
`Agent(r['id'], r['path'], r['coords'], r['type'])` followed by
`agent.isHeavy = (r['type'] == 'HeavyVehicle')`. -/
def agentOfResult (r : RouteResult) : Agent :=
  { mkAgent r.id r.path r.coords r.type with isHeavy := decide (r.type = "HeavyVehicle") }

/-- The final agent-collection loop of `PopulationAgentsParallel` (engine.py
lines 133-140): keep exactly the non-`None` worker results.  The random task
sampling and the process pools above it are not modelled; the per-task result
list is the parameter. -/
def finalAgentsOf (results : List (Option RouteResult)) : List Agent :=
  results.filterMap (fun r => r.map agentOfResult)

/-- Python `int()` on a rational: truncation toward zero. -/
def pyInt (q : ℚ) : ℤ :=
  if 0 ≤ q then ⌊q⌋ else ⌈q⌉

/-- The capacity-assignment loop of `PreProcessing` (engine.py lines 217-219):
`data['capacity'] = max(1, int(data.get('length', 1.0) / VEHICLE_SPACE))`
with `VEHICLE_SPACE = 7.0`. -/
def setEdgeCapacity (e : Edge) : Edge :=
  { e with data := { e.data with
      capacity := some (max 1 (pyInt ((e.data.length.getD 1) / 7))).toNat } }

/-- The graph transformation performed by `PreProcessing` (engine.py
lines 215-230).  The destination-weight distribution it also returns
(numpy centroid / degree weights) is consumed only by the unmodelled random
task sampling and is not part of any claim, so only the capacity mutation of
the graph is embedded. -/
def preProcessingCapacities (g : Graph) : Graph :=
  { g with edges := g.edges.map setEdgeCapacity }

/-- The background-road construction of `RunSimulation` (engine.py
lines 255-259): per edge, its `geometry` coordinates when present, else the
segment `[[x_u, y_u], [x_v, y_v]]`. -/
def roadsOf (g : Graph) : List (List (ℚ × ℚ)) :=
  g.edges.map (fun e =>
    match e.data.geometry with
    | some coords => coords
    | none => [(g.nodeX e.u, g.nodeY e.u), (g.nodeX e.v, g.nodeY e.v)])

/-- `RunSimulation` (engine.py lines 236-264).  The two `LoadGraphWithCache`
fetches are `Except` parameters (NetworkStore is external); the
weight-attribute copy, strongly-connected-component truncation and barrier
application are graph-to-graph library calls folded into `prepare`; the
population phase (random sampling + process pools) is the `populate`
parameter.  The blanket `except` of lines 262-264, which prints and returns
`(pd.DataFrame(), [])`, is the final match arm: a failed fetch raises inside
the `try` and is caught there. -/
def runSimulation (fetchDrive fetchWalk : Except Unit Graph)
    (prepareDrive prepareWalk : Graph → Graph)
    (populate : Graph → Graph → List Agent) (duration : ℕ)
    (rng : ℕ → ℕ → ℚ) : List SimRecord × List (List (ℚ × ℚ)) :=
  match fetchDrive, fetchWalk with
  | Except.ok gD0, Except.ok gW0 =>
    let gDrive := prepareDrive gD0
    let gWalk := prepareWalk gW0
    let allAgents := populate gDrive gWalk
    let results := runTicks allAgents duration gDrive rng
    (results, roadsOf gDrive)
  | _, _ => ([], [])

/-! Section: Helper lemmas and concrete fixtures -/

/-- Bool predicate: agent `a` contributes to the occupancy of edge `e`
(the guard of the `GetEdgeOccupancy` loop, specialized to one edge). -/
def occContrib (e : ℕ × ℕ) (a : Agent) : Bool :=
  a.active && decide (a.currentStep < a.path.length - 1) && decide (nextEdge a = e)

theorem foldl_occStep (l : List Agent) (occ : ℕ × ℕ → ℚ) (e : ℕ × ℕ) :
    (l.foldl occStep occ) e
      = occ e + ((l.filter (occContrib e)).map (fun a => if a.isHeavy then (3:ℚ) else 1)).sum := by
  induction l generalizing occ with
  | nil => simp
  | cons a l ih =>
    simp only [List.foldl_cons, ih, List.filter_cons]
    by_cases h1 : a.active = true ∧ a.currentStep < a.path.length - 1
    · by_cases h2 : nextEdge a = e
      · have hc : occContrib e a = true := by
          simp [occContrib, h1.1, h1.2, h2]
        simp only [hc, if_pos, List.map_cons, List.sum_cons, occStep, h1]
        simp only [if_pos h1, Function.update, h2]
        simp [h2]
        ring
      · have hc : occContrib e a = false := by
          simp [occContrib, h2]
        simp only [hc, Bool.false_eq_true, if_neg, occStep, if_pos h1]
        simp [Function.update, h2]
        intro h; exact absurd h.symm h2
    · have hc : occContrib e a = false := by
        simp only [occContrib]
        rcases not_and_or.mp h1 with h | h
        · simp [h]
        · simp [h]
      simp only [hc, Bool.false_eq_true, if_neg, occStep]
      rw [if_neg h1]
      simp

theorem getEdgeOccupancy_eq (l : List Agent) (e : ℕ × ℕ) :
    getEdgeOccupancy l e
      = ((l.filter (occContrib e)).map (fun a => if a.isHeavy then (3:ℚ) else 1)).sum := by
  rw [getEdgeOccupancy, foldl_occStep]; simp

/-- The empty graph (used where the graph is irrelevant, e.g. for agent sets
containing only pedestrians, whose movement never consults the graph). -/
def gEmpty : Graph := { nodeIds := [], nodeX := fun _ => 0, nodeY := fun _ => 0, edges := [] }

/-- A pedestrian with a 4-node path, as produced by the routing phase. -/
def wPed : Agent :=
  agentOfResult { id := "p_0", path := [1, 2, 3, 4],
                  coords := [(0, 0), (0, 1), (1, 1), (1, 2)], type := "Pedestrian" }

/-- A HeavyVehicle about to traverse edge (1, 2). -/
def truckAgent : Agent :=
  agentOfResult { id := "T1", path := [1, 2], coords := [(0, 0), (0, 1)], type := "HeavyVehicle" }

/-- A Vehicle about to traverse edge (1, 2). -/
def carAgent : Agent :=
  agentOfResult { id := "C1", path := [1, 2], coords := [(0, 0), (0, 1)], type := "Vehicle" }

/-- A Pedestrian about to traverse edge (1, 2). -/
def pedAgent : Agent :=
  agentOfResult { id := "p_1", path := [1, 2], coords := [(0, 0), (0, 1)], type := "Pedestrian" }

/-! Section: C6: traffic light phase function -/

/-- C6: `IsGreenLight(u, v, t)` is true iff `(u + v)` is even and
`t % 30 ∈ [0, 15)`, or `(u + v)` is odd and `t % 30 ∈ [15, 30)`; and the
function is periodic in `t` with period 30. -/
theorem C6_green_light_phases (u v t : ℕ) :
    (isGreenLight u v t = true ↔
      ((u + v) % 2 = 0 ∧ t % 30 < 15) ∨ ((u + v) % 2 = 1 ∧ 15 ≤ t % 30 ∧ t % 30 < 30))
    ∧ isGreenLight u v (t + 30) = isGreenLight u v t := by
  constructor
  · rcases Nat.even_or_odd (u + v) with h | h
    · have h0 : (u + v) % 2 = 0 := Nat.even_iff.mp h
      simp [isGreenLight, h0]
      try omega
    · have h1 : (u + v) % 2 = 1 := Nat.odd_iff.mp h
      simp [isGreenLight, h1]
      try omega
  · simp [isGreenLight, Nat.add_mod_right]

/-! Section: C3: passenger-car-equivalent occupancy -/

/-- C3 counterexample: a single active Pedestrian about to traverse edge
(1, 2) contributes 1.0 to the occupancy snapshot, not 0 — `GetEdgeOccupancy`
weighs every active agent by `3.0 if isHeavy else 1.0` regardless of kind,
so pedestrians are not exempt from the load computation. -/
theorem C3_counterexample :
    pedAgent.type = "Pedestrian" ∧ pedAgent.active = true
      ∧ getEdgeOccupancy [pedAgent] (1, 2) = 1 := by
  refine ⟨rfl, by decide, ?_⟩
  have hf : ([pedAgent].filter (occContrib (1, 2))) = [pedAgent] := by decide
  have h1 : pedAgent.isHeavy = false := by decide
  rw [getEdgeOccupancy_eq, hf]
  simp [h1]

/-- C3 amended: the occupancy snapshot maps each directed edge to the sum of
the weights of the active agents about to traverse it, where the weight is
3.0 for a HeavyVehicle and 1.0 for every other kind — Vehicles *and*
Pedestrians alike; in particular one HeavyVehicle plus one Vehicle both about
to traverse edge (1, 2) yields load(1, 2) = 4.0. -/
theorem C3_pce_load :
    (∀ (agents : List Agent) (e : ℕ × ℕ),
      getEdgeOccupancy agents e
        = ((agents.filter (occContrib e)).map
            (fun a => if a.isHeavy then (3:ℚ) else 1)).sum)
    ∧ getEdgeOccupancy [truckAgent, carAgent] (1, 2) = 4 := by
  constructor
  · exact getEdgeOccupancy_eq
  · have hf : ([truckAgent, carAgent].filter (occContrib (1, 2))) = [truckAgent, carAgent] := by
      decide
    have h1 : truckAgent.isHeavy = true := by decide
    have h2 : carAgent.isHeavy = false := by decide
    rw [getEdgeOccupancy_eq, hf]
    simp [h1, h2]
    norm_num

/-! Section: C9: edge capacities from pre-processing -/

/-- C9: after pre-processing, every edge's capacity is
`max(1, floor(length / 7.0))` (with `length` defaulting to 1.0), hence ≥ 1.
The hypothesis `0 ≤ length` reflects that physical edge lengths are
non-negative (Python `int()` truncates toward zero, which agrees with
`floor` exactly on non-negative inputs). -/
theorem C9_capacity (g : Graph) (e : Edge)
    (he : e ∈ (preProcessingCapacities g).edges)
    (hlen : (0:ℚ) ≤ e.data.length.getD 1) :
    e.data.capacity = some (max 1 ⌊(e.data.length.getD 1) / 7⌋).toNat
    ∧ ∀ c : ℕ, e.data.capacity = some c → 1 ≤ c := by
  simp only [preProcessingCapacities, List.mem_map] at he
  obtain ⟨e0, he0, rfl⟩ := he
  have h7 : (0:ℚ) ≤ ((setEdgeCapacity e0).data.length.getD 1) / 7 :=
    div_nonneg hlen (by norm_num)
  have hsame : (setEdgeCapacity e0).data.length = e0.data.length := rfl
  constructor
  · show some (max 1 (pyInt ((e0.data.length.getD 1) / 7))).toNat
        = some (max 1 ⌊(e0.data.length.getD 1) / 7⌋).toNat
    rw [pyInt, if_pos (by rw [hsame] at h7; exact h7)]
  · intro c hc
    have hc' : (max 1 (pyInt ((e0.data.length.getD 1) / 7))).toNat = c :=
      Option.some.inj hc
    calc (1:ℕ) = (1:ℤ).toNat := rfl
      _ ≤ _ := hc' ▸ Int.toNat_le_toNat (le_max_left _ _)

/-- Raw edge for the C9 witness: length 100. -/
def eRaw9 : Edge := { u := 1, v := 2, key := 0, data := { length := some 100 } }

/-- One-edge graph for the C9 witness. -/
def g9 : Graph :=
  { nodeIds := [1, 2], nodeX := fun _ => 0, nodeY := fun _ => 0, edges := [eRaw9] }

/-- The processed C9 witness edge. -/
def e9 : Edge := setEdgeCapacity eRaw9

/-- C9 witness: the edge of length 100 in the processed graph satisfies the
capacity formula and its capacity is ≥ 1. -/
theorem C9_capacity_witness :
    ((0:ℚ) ≤ e9.data.length.getD 1)
    ∧ e9.data.capacity = some (max 1 ⌊(e9.data.length.getD 1) / 7⌋).toNat
    ∧ 1 ≤ (max 1 ⌊(e9.data.length.getD 1) / 7⌋).toNat := by
  have hmem : e9 ∈ (preProcessingCapacities g9).edges := by
    simp [preProcessingCapacities, g9, e9]
  have hlen : (0:ℚ) ≤ e9.data.length.getD 1 := by
    show (0:ℚ) ≤ ((100 : ℚ)) 
    norm_num
  have h := C9_capacity g9 e9 hmem hlen
  exact ⟨hlen, h.1, h.2 _ h.1⟩

/-! Section: C10: default capacity 5 in the congestion check -/

/-- C10: for a Vehicle or HeavyVehicle whose upcoming edge exists but has no
`capacity` attribute, and whose start node does not fail the traffic-light
gate, `ValidateMovement` compares the occupancy snapshot against the default
capacity 5: it blocks exactly when the occupancy exceeds 5 and the random
draw falls below 0.7 — rather than skipping the congestion check. -/
theorem C10_default_capacity (a : Agent) (g : Graph) (occ : ℕ × ℕ → ℚ)
    (i : ℕ) (r : ℚ) (d : EdgeData)
    (hty : a.type = "Vehicle" ∨ a.type = "HeavyVehicle")
    (hstep : a.currentStep < a.path.length - 1)
    (hedge : getEdgeData g (nextEdge a).1 (nextEdge a).2 0 = some d)
    (hcap : d.capacity = none)
    (hlight : ¬(2 < degree g (nextEdge a).1
        ∧ isGreenLight (nextEdge a).1 (nextEdge a).2 i = false)) :
    validateMovement a g occ i r
      = if 5 < occ (nextEdge a) ∧ r < 7 / 10 then false else true := by
  have hty' : ¬(a.type ≠ "Vehicle" ∧ a.type ≠ "HeavyVehicle") := by
    rcases hty with h | h <;> simp [h]
  simp only [validateMovement, if_neg hty', if_neg (Nat.not_le.mpr hstep),
    if_neg hlight, hedge, hcap]

/-- Edge data with no `capacity` attribute, for the C10 witness. -/
def edC10 : EdgeData := { length := some 10 }

/-- One-edge graph for the C10 witness. -/
def gC10 : Graph :=
  { nodeIds := [1, 2], nodeX := fun _ => 0, nodeY := fun _ => 0,
    edges := [{ u := 1, v := 2, key := 0, data := edC10 }] }

/-- A Vehicle about to traverse the capacity-less edge (1, 2). -/
def aC10 : Agent :=
  agentOfResult { id := "v_0", path := [1, 2], coords := [(0, 0), (0, 1)], type := "Vehicle" }

/-- Occupancy snapshot reporting load 6 on edge (1, 2). -/
def occC10 : ℕ × ℕ → ℚ := fun e => if e = (1, 2) then 6 else 0

/-- C10 witness: at occupancy 6 > 5 and a draw of 0 < 0.7, the Vehicle on the
capacity-less edge is blocked by the congestion rule with default capacity 5. -/
theorem C10_default_capacity_witness :
    (aC10.type = "Vehicle" ∨ aC10.type = "HeavyVehicle")
    ∧ aC10.currentStep < aC10.path.length - 1
    ∧ getEdgeData gC10 (nextEdge aC10).1 (nextEdge aC10).2 0 = some edC10
    ∧ edC10.capacity = none
    ∧ ¬(2 < degree gC10 (nextEdge aC10).1
        ∧ isGreenLight (nextEdge aC10).1 (nextEdge aC10).2 0 = false)
    ∧ validateMovement aC10 gC10 occC10 0 0
        = if 5 < occC10 (nextEdge aC10) ∧ (0:ℚ) < 7 / 10 then false else true :=
  ⟨Or.inl rfl, by decide, rfl, rfl, by decide,
    C10_default_capacity aC10 gC10 occC10 0 0 edC10 (Or.inl rfl) (by decide) rfl rfl (by decide)⟩

/-! Section: Structural lemmas about stepping and the tick loop -/

theorem Agent.step_id (a : Agent) : a.step.id = a.id := by
  simp only [Agent.step]; split_ifs <;> rfl

theorem Agent.step_path (a : Agent) : a.step.path = a.path := by
  simp only [Agent.step]; split_ifs <;> rfl

theorem Agent.step_type (a : Agent) : a.step.type = a.type := by
  simp only [Agent.step]; split_ifs <;> rfl

theorem Agent.step_ticksAlive (a : Agent) : a.step.ticksAlive = a.ticksAlive := by
  simp only [Agent.step]; split_ifs <;> rfl

theorem Agent.step_csLt (a : Agent) (h : a.currentStep < a.path.length) :
    a.step.currentStep < a.step.path.length := by
  simp only [Agent.step]
  split_ifs <;> (try simp) <;> omega

theorem processAgent_id (g : Graph) (d : ℕ) (occ : ℕ × ℕ → ℚ) (t : ℕ) (r : ℚ)
    (a : Agent) : (processAgent g d occ t r a).1.id = a.id := by
  simp only [processAgent]
  split_ifs <;>
    simp [Agent.step_id, Agent.step_type, Agent.step_ticksAlive]

theorem processAgent_path (g : Graph) (d : ℕ) (occ : ℕ × ℕ → ℚ) (t : ℕ) (r : ℚ)
    (a : Agent) : (processAgent g d occ t r a).1.path = a.path := by
  simp only [processAgent]
  split_ifs <;>
    simp [Agent.step_path]

theorem processAgent_inactive (g : Graph) (d : ℕ) (occ : ℕ × ℕ → ℚ) (t : ℕ) (r : ℚ)
    (a : Agent) (h : a.active = false) : processAgent g d occ t r a = (a, none) := by
  simp only [processAgent, h, if_pos]

theorem processAgent_csLt (g : Graph) (d : ℕ) (occ : ℕ × ℕ → ℚ) (t : ℕ) (r : ℚ)
    (a : Agent) (h : a.currentStep < a.path.length) :
    (processAgent g d occ t r a).1.currentStep < (processAgent g d occ t r a).1.path.length := by
  simp only [processAgent]
  split_ifs <;> simp_all <;>
    first
      | exact Agent.step_csLt _ (Agent.step_csLt _ h)
      | exact Agent.step_csLt _ h

theorem processAgent_rec (g : Graph) (d : ℕ) (occ : ℕ × ℕ → ℚ) (t : ℕ) (r : ℚ)
    (a : Agent) (rec : SimRecord) (h : (processAgent g d occ t r a).2 = some rec) :
    rec.tick = t ∧ rec.agent_id = a.id := by
  simp only [processAgent] at h
  split_ifs at h <;> simp_all <;>
    simp [← h, Agent.step_id]

theorem processAgent_active_bound (g : Graph) (d : ℕ) (occ : ℕ × ℕ → ℚ) (t : ℕ)
    (r : ℚ) (a : Agent) (h : (processAgent g d occ t r a).1.active = true) :
    a.active = true ∧ (processAgent g d occ t r a).1.ticksAlive = a.ticksAlive + 1
      ∧ a.ticksAlive + 1 ≤ d := by
  by_cases ha : a.active = false
  · rw [processAgent_inactive g d occ t r a ha] at h
    exact absurd h (by simp [ha])
  · have ha' : a.active = true := by simpa using ha
    refine ⟨ha', ?_⟩
    simp only [processAgent, ha', Bool.true_eq_false, if_neg, if_false] at h ⊢
    split_ifs at h ⊢ with h1 <;> simp_all [Agent.step_ticksAlive]

theorem runAgents_ids (g : Graph) (d : ℕ) (occ : ℕ × ℕ → ℚ) (t : ℕ)
    (rng : ℕ → ℚ) (l : List Agent) (j : ℕ) :
    ((runAgents g d occ t rng l j).1).map (fun a => a.id) = l.map (fun a => a.id) := by
  induction l generalizing j with
  | nil => simp [runAgents]
  | cons a l ih => simp [runAgents, processAgent_id, ih]

theorem runAgents_rec_tick (g : Graph) (d : ℕ) (occ : ℕ × ℕ → ℚ) (t : ℕ)
    (rng : ℕ → ℚ) (l : List Agent) (j : ℕ) (rec : SimRecord)
    (hrec : rec ∈ (runAgents g d occ t rng l j).2) : rec.tick = t := by
  induction l generalizing j with
  | nil => simp [runAgents] at hrec
  | cons a l ih =>
    simp only [runAgents, List.mem_append] at hrec
    rcases hrec with h | h
    · rcases hp : (processAgent g d occ t (rng j) a).2 with _ | rec2
      · rw [hp] at h; simp at h
      · rw [hp] at h
        simp only [Option.toList_some, List.mem_singleton] at h
        subst h
        exact (processAgent_rec g d occ t (rng j) a rec hp).1
    · exact ih (j + 1) h

theorem runAgents_rec_ids_sublist (g : Graph) (d : ℕ) (occ : ℕ × ℕ → ℚ) (t : ℕ)
    (rng : ℕ → ℚ) (l : List Agent) (j : ℕ) :
    ((runAgents g d occ t rng l j).2.map (fun r => r.agent_id)).Sublist
      (l.map (fun a => a.id)) := by
  induction l generalizing j with
  | nil => simp [runAgents]
  | cons a l ih =>
    simp only [runAgents, List.map_append, List.map_cons]
    rcases hp : (processAgent g d occ t (rng j) a).2 with _ | rec2
    · simp only [Option.toList_none, List.map_nil, List.nil_append]
      exact (ih (j + 1)).cons a.id
    · simp only [Option.toList_some, List.map_cons, List.map_nil]
      have hid : rec2.agent_id = a.id := (processAgent_rec g d occ t (rng j) a rec2 hp).2
      rw [List.singleton_append, hid]
      exact (ih (j + 1)).cons₂ a.id

theorem runAgents_active_bound (g : Graph) (d : ℕ) (occ : ℕ × ℕ → ℚ) (t : ℕ)
    (rng : ℕ → ℚ) (l : List Agent) (j : ℕ)
    (H : ∀ a ∈ l, a.active = true → t ≤ a.ticksAlive) :
    ∀ b ∈ (runAgents g d occ t rng l j).1, b.active = true →
      t + 1 ≤ b.ticksAlive ∧ b.ticksAlive ≤ d := by
  induction l generalizing j with
  | nil => simp [runAgents]
  | cons a l ih =>
    simp only [runAgents, List.mem_cons]
    rintro b (rfl | hb) hact
    · obtain ⟨ha, he, hd⟩ := processAgent_active_bound g d occ t (rng j) a hact
      have := H a (List.mem_cons_self a l) ha
      omega
    · exact ih (j + 1) (fun a2 ha2 => H a2 (List.mem_cons_of_mem a ha2)) b hb hact

theorem runAgents_inactive_id (g : Graph) (d : ℕ) (occ : ℕ × ℕ → ℚ) (t : ℕ)
    (rng : ℕ → ℚ) (l : List Agent) (j : ℕ) (x : String)
    (H : ∀ a ∈ l, a.id = x → a.active = false) :
    (∀ b ∈ (runAgents g d occ t rng l j).1, b.id = x → b.active = false)
    ∧ (∀ rec ∈ (runAgents g d occ t rng l j).2, rec.agent_id ≠ x) := by
  induction l generalizing j with
  | nil => simp [runAgents]
  | cons a l ih =>
    have Htail : ∀ a2 ∈ l, a2.id = x → a2.active = false :=
      fun a2 ha2 => H a2 (List.mem_cons_of_mem a ha2)
    obtain ⟨ih1, ih2⟩ := ih (j + 1) Htail
    constructor
    · simp only [runAgents, List.mem_cons]
      rintro b (rfl | hb) hid
      · by_cases hax : a.id = x
        · have hinact : a.active = false := H a (List.mem_cons_self a l) hax
          rw [processAgent_inactive g d occ t (rng j) a hinact]
          exact hinact
        · exact absurd (by rw [← processAgent_id g d occ t (rng j) a, hid]) hax
      · exact ih1 b hb hid
    · simp only [runAgents, List.mem_append]
      rintro rec (hrec | hrec)
      · rcases hp : (processAgent g d occ t (rng j) a).2 with _ | rec2
        · rw [hp] at hrec; simp at hrec
        · rw [hp] at hrec
          simp only [Option.toList_some, List.mem_singleton] at hrec
          subst hrec
          have hid : rec.agent_id = a.id := (processAgent_rec g d occ t (rng j) a rec hp).2
          intro hx
          have hinact : a.active = false := H a (List.mem_cons_self a l) (hid ▸ hx)
          rw [processAgent_inactive g d occ t (rng j) a hinact] at hp
          simp at hp
      · exact ih2 rec hrec

theorem runTicksFrom_nil (g : Graph) (d : ℕ) (rng : ℕ → ℕ → ℚ) (n i : ℕ)
    (occ : ℕ × ℕ → ℚ) : runTicksFrom g d rng i n occ [] = ([], []) := by
  induction n generalizing i occ with
  | zero => simp [runTicksFrom]
  | succ n ih => simp [runTicksFrom, runAgents, ih]

theorem runTicksFrom_all_inactive (g : Graph) (d : ℕ) (rng : ℕ → ℕ → ℚ)
    (n : ℕ) :
    ∀ (i : ℕ) (occ : ℕ × ℕ → ℚ) (agents : List Agent),
      (∀ a ∈ agents, a.active = true → i ≤ a.ticksAlive ∧ (1 ≤ i → a.ticksAlive ≤ d)) →
      d + 1 ≤ i + n →
      ∀ b ∈ (runTicksFrom g d rng i n occ agents).1, b.active = false := by
  induction n with
  | zero =>
    intro i occ agents H hn b hb
    by_contra hact
    have hact' : b.active = true := by simpa using hact
    have := H b (by simpa [runTicksFrom] using hb) hact'
    omega
  | succ n ih =>
    intro i occ agents H hn b hb
    simp only [runTicksFrom] at hb
    refine ih (i + 1) _ _ ?_ (by omega) b hb
    intro a ha hact
    have := runAgents_active_bound g d
      (if i % 5 = 0 then getEdgeOccupancy agents else occ) i (rng i) agents 0
      (fun a2 ha2 h2 => (H a2 ha2 h2).1) a ha hact
    omega

theorem runTicksFrom_rec_tick_ge (g : Graph) (d : ℕ) (rng : ℕ → ℕ → ℚ)
    (n : ℕ) :
    ∀ (i : ℕ) (occ : ℕ × ℕ → ℚ) (agents : List Agent) (rec : SimRecord),
      rec ∈ (runTicksFrom g d rng i n occ agents).2 → i ≤ rec.tick := by
  induction n with
  | zero => intro i occ agents rec hrec; simp [runTicksFrom] at hrec
  | succ n ih =>
    intro i occ agents rec hrec
    simp only [runTicksFrom, List.mem_append] at hrec
    rcases hrec with h | h
    · exact le_of_eq (runAgents_rec_tick g d _ i (rng i) agents 0 rec h).symm
    · exact Nat.le_of_succ_le (ih (i + 1) _ _ rec h)

theorem runTicksFrom_pairs_nodup (g : Graph) (d : ℕ) (rng : ℕ → ℕ → ℚ)
    (n : ℕ) :
    ∀ (i : ℕ) (occ : ℕ × ℕ → ℚ) (agents : List Agent),
      (agents.map (fun a => a.id)).Nodup →
      ((runTicksFrom g d rng i n occ agents).2.map
        (fun r => (r.tick, r.agent_id))).Nodup := by
  induction n with
  | zero => intro i occ agents _; simp [runTicksFrom]
  | succ n ih =>
    intro i occ agents H
    simp only [runTicksFrom, List.map_append]
    set occ1 := if i % 5 = 0 then getEdgeOccupancy agents else occ with hocc1
    have hblk_ids : ((runAgents g d occ1 i (rng i) agents 0).2.map
        (fun r => r.agent_id)).Nodup :=
      (runAgents_rec_ids_sublist g d occ1 i (rng i) agents 0).nodup H
    have hblk : ((runAgents g d occ1 i (rng i) agents 0).2.map
        (fun r => (r.tick, r.agent_id))).Nodup := by
      refine List.Nodup.of_map Prod.snd ?_
      simpa [Function.comp] using hblk_ids
    have hrest : ((runTicksFrom g d rng (i + 1) n occ1
        (runAgents g d occ1 i (rng i) agents 0).1).2.map
        (fun r => (r.tick, r.agent_id))).Nodup := by
      refine ih (i + 1) occ1 _ ?_
      rw [runAgents_ids]
      exact H
    refine hblk.append hrest ?_
    intro p hp hp2
    simp only [List.mem_map] at hp hp2
    obtain ⟨r1, hr1, hpr1⟩ := hp
    obtain ⟨r2, hr2, hpr2⟩ := hp2
    have ht1 : r1.tick = i := runAgents_rec_tick g d occ1 i (rng i) agents 0 r1 hr1
    have ht2 : i + 1 ≤ r2.tick := runTicksFrom_rec_tick_ge g d rng n (i + 1) occ1 _ r2 hr2
    have : p.1 = i := by rw [← hpr1, ht1]
    have : p.1 = r2.tick := by rw [← hpr2]
    omega

theorem runTicksFrom_tick_sorted (g : Graph) (d : ℕ) (rng : ℕ → ℕ → ℚ)
    (n : ℕ) :
    ∀ (i : ℕ) (occ : ℕ × ℕ → ℚ) (agents : List Agent),
      ((runTicksFrom g d rng i n occ agents).2.map
        (fun r => r.tick)).Pairwise (· ≤ ·) := by
  induction n with
  | zero => intro i occ agents; simp [runTicksFrom]
  | succ n ih =>
    intro i occ agents
    simp only [runTicksFrom, List.map_append]
    rw [List.pairwise_append]
    set occ1 := if i % 5 = 0 then getEdgeOccupancy agents else occ with hocc1
    refine ⟨?_, ih (i + 1) occ1 _, ?_⟩
    · refine List.pairwise_of_forall_mem_list ?_
      intro x hx y hy
      simp only [List.mem_map] at hx hy
      obtain ⟨r1, hr1, rfl⟩ := hx
      obtain ⟨r2, hr2, rfl⟩ := hy
      rw [runAgents_rec_tick g d occ1 i (rng i) agents 0 r1 hr1,
        runAgents_rec_tick g d occ1 i (rng i) agents 0 r2 hr2]
    · intro x hx y hy
      simp only [List.mem_map] at hx hy
      obtain ⟨r1, hr1, rfl⟩ := hx
      obtain ⟨r2, hr2, rfl⟩ := hy
      have ht1 : r1.tick = i := runAgents_rec_tick g d occ1 i (rng i) agents 0 r1 hr1
      have ht2 : i + 1 ≤ r2.tick := runTicksFrom_rec_tick_ge g d rng n (i + 1) occ1 _ r2 hr2
      omega

theorem runTicksFrom_no_id (g : Graph) (d : ℕ) (rng : ℕ → ℕ → ℚ) (n : ℕ) :
    ∀ (i : ℕ) (occ : ℕ × ℕ → ℚ) (agents : List Agent) (x : String),
      (∀ a ∈ agents, a.id = x → a.active = false) →
      ∀ rec ∈ (runTicksFrom g d rng i n occ agents).2, rec.agent_id ≠ x := by
  induction n with
  | zero => intro i occ agents x _ rec hrec; simp [runTicksFrom] at hrec
  | succ n ih =>
    intro i occ agents x H rec hrec
    simp only [runTicksFrom, List.mem_append] at hrec
    set occ1 := if i % 5 = 0 then getEdgeOccupancy agents else occ with hocc1
    obtain ⟨h1, h2⟩ := runAgents_inactive_id g d occ1 i (rng i) agents 0 x H
    rcases hrec with h | h
    · exact h2 rec h
    · exact ih (i + 1) occ1 _ x h1 rec h

/-! Section: C1: record emission cadence -/

/-- C1: contrary to the stated 5-tick downsampling, `RunTicks` appends a
record on *every* tick for each agent still active after stepping — the
`i % 5 == 0` test only gates the occupancy-snapshot refresh.  With one
pedestrian on a 4-node path and duration 2, a record is emitted at tick 1,
which is neither tick 0 nor a multiple of 5. -/
theorem C1_record_every_tick :
    ∃ rec ∈ runTicks [wPed] 2 gEmpty (fun _ _ => 0), rec.tick ≠ 0 ∧ rec.tick % 5 ≠ 0 := by
  decide

/-! Section: C2: error kinds in RunSimulation's result -/

/-- C2 counterexample: a failed network fetch does not propagate as an
explicit failure — the blanket `except` of `RunSimulation` returns the plain
value `(empty records, empty roads)`, which coincides exactly with the output
of a successful run on an edgeless graph with an empty population. -/
theorem C2_counterexample :
    runSimulation (Except.error ()) (Except.ok gEmpty) id id (fun _ _ => []) 1 (fun _ _ => 0)
      = runSimulation (Except.ok gEmpty) (Except.ok gEmpty) id id (fun _ _ => []) 1 (fun _ _ => 0)
    ∧ runSimulation (Except.error ()) (Except.ok gEmpty) id id (fun _ _ => []) 1 (fun _ _ => 0)
      = ([], []) := by
  constructor <;> rfl

/-- C2 amended: a failed network fetch is caught inside `RunSimulation` and
returned as the ordinary value `(empty records, empty roads)` rather than
propagating as an explicit failure; an empty population on a successful
fetch returns `(empty records, roads of the drive graph)`.  The two cases
are therefore distinguishable only through the roads list (and not at all
when the drive graph has no edges), not by an explicit failure signal. -/
theorem C2_error_collapse (fetchW : Except Unit Graph) (prepD prepW : Graph → Graph)
    (pop : Graph → Graph → List Agent) (dur : ℕ) (rng : ℕ → ℕ → ℚ) (g : Graph)
    (hpop : pop (prepD g) (prepW g) = []) :
    runSimulation (Except.error ()) fetchW prepD prepW pop dur rng = ([], [])
    ∧ runSimulation (Except.ok g) (Except.ok g) prepD prepW pop dur rng
        = ([], roadsOf (prepD g)) := by
  constructor
  · cases fetchW <;> rfl
  · simp only [runSimulation, hpop, runTicks, runTicksFrom_nil]

/-- C2 witness: concrete instantiation of the amended statement at an
edgeless graph with the empty population. -/
theorem C2_error_collapse_witness :
    ((fun _ _ => ([] : List Agent)) (id gEmpty) (id gEmpty) = ([] : List Agent))
    ∧ runSimulation (Except.error ()) (Except.ok gEmpty) id id (fun _ _ => []) 3 (fun _ _ => 0)
        = ([], [])
    ∧ runSimulation (Except.ok gEmpty) (Except.ok gEmpty) id id (fun _ _ => []) 3 (fun _ _ => 0)
        = ([], roadsOf (id gEmpty)) :=
  have h := C2_error_collapse (Except.ok gEmpty) id id (fun _ _ => []) 3 (fun _ _ => 0) gEmpty rfl
  ⟨rfl, h.1, h.2⟩

/-! Section: C4: termination of agents -/

/-- C4 counterexample: with `durationTicks = 1` (≥ 1) and one pedestrian
whose path has 4 nodes, the agent is still active after the tick loop ends
(`(runTicksFrom g d rng 0 d occ0 agents).1` is exactly the post-`RunTicks`
state of the agent list): the budget check `ticksAlive > duration` can only
trigger at tick index `duration`, which the `range(duration)` loop never
reaches. -/
theorem C4_counterexample :
    ((runTicksFrom gEmpty 1 (fun _ _ => 0) 0 1 (fun _ => 0) [wPed]).1.map
      (fun a => a.active)) = [true] := by
  decide

/-- C4 amended: agents need not all be inactive after the `durationTicks`
iterations `RunTicks` actually performs; rather, every agent is deactivated
within `durationTicks + 1` ticks of stepping: continuing the loop for one
extra iteration (`durationTicks + 1` iterations against the same budget)
leaves every agent with `active == false`. -/
theorem C4_termination (g : Graph) (rng : ℕ → ℕ → ℚ) (d : ℕ) (agents : List Agent) :
    ((runTicksFrom g d rng 0 (d + 1) (fun _ => 0) agents).1.all
      (fun b => !b.active)) = true := by
  rw [List.all_eq_true]
  intro b hb
  have hres := runTicksFrom_all_inactive g d rng (d + 1) 0 (fun _ => 0) agents
    (fun a _ _ => ⟨Nat.zero_le _, fun h1 => absurd h1 (by omega)⟩) (by omega) b hb
  simp [hres]

/-! Section: C5: agent creation by the routing phase -/

/-- Shortest-path oracle reflecting networkx behaviour for
`origin == destination`: the path is the single-node list `[origin]`. -/
def spSelf : ℕ → ℕ → Option (List ℕ) := fun o t => if o = t then some [o] else none

/-- C5 counterexample: a task with `origin == destination == 5` yields the
single-node path `[5]` of cost 0 < 500000, so `ComputePathWorker` returns a
result and the collection loop of `PopulationAgentsParallel` *does* create an
Agent from it: the set passed to the tick loop contains one agent whose path
has length 1 (< 2), constructed inactive. -/
theorem C5_counterexample :
    (finalAgentsOf [computePathWorker spSelf (fun _ => 0) (fun _ => (0, 0))
        "v_0" 5 5 "Vehicle"]).map (fun a => (a.path.length, a.active)) = [(1, false)] := by
  decide

/-- C5 amended: the routing phase creates an Agent for every task whose
solver returns a non-empty path of cumulative weight < 500000 — including
the degenerate single-node path when origin equals destination, which yields
an agent that is included in the set passed to the tick loop but is
constructed with `active = false` (so it never moves and never produces
records).  Only tasks where the solver yields no path (or raises) or whose
path cost is ≥ 500000 produce no agent. -/
theorem C5_agent_creation (sp : ℕ → ℕ → Option (List ℕ)) (pw : List ℕ → ℚ)
    (co : ℕ → ℚ × ℚ) (aid : String) (o t : ℕ) (ty : String) (p : List ℕ)
    (hp : sp o t = some p) (hne : p ≠ []) (hcost : pw p < 500000) :
    computePathWorker sp pw co aid o t ty
      = some { id := aid, path := p, coords := p.map co, type := ty }
    ∧ (p.length ≤ 1 →
        (agentOfResult { id := aid, path := p, coords := p.map co, type := ty }).active
          = false) := by
  constructor
  · simp only [computePathWorker, hp]
    rw [if_pos ⟨hne, hcost⟩]
  · intro hlen
    simp [agentOfResult, mkAgent]
    omega

/-- The worker result of the degenerate origin-5-to-5 routing task. -/
def degenResult : RouteResult :=
  { id := "v_0", path := [5], coords := [5].map (fun _ => ((0:ℚ), (0:ℚ))), type := "Vehicle" }

/-- C5 witness: the degenerate origin-5-to-5 task concretely produces an
inactive agent. -/
theorem C5_agent_creation_witness :
    spSelf 5 5 = some [5]
    ∧ ([5] : List ℕ) ≠ []
    ∧ ((fun _ : List ℕ => (0:ℚ)) [5]) < 500000
    ∧ computePathWorker spSelf (fun _ => 0) (fun _ => ((0:ℚ), (0:ℚ))) "v_0" 5 5 "Vehicle"
        = some degenResult
    ∧ (agentOfResult degenResult).active = false :=
  have h := C5_agent_creation spSelf (fun _ => 0) (fun _ => ((0:ℚ), (0:ℚ)))
    "v_0" 5 5 "Vehicle" [5] rfl (by decide) (by norm_num)
  ⟨rfl, by decide, by norm_num, h.1, h.2 (by decide)⟩

/-! Section: C7: record key uniqueness and per-agent tick monotonicity -/

/-- C7: when the agents fed to the tick loop have pairwise distinct ids, the
pair (tick, agent_id) is unique across the emitted record sequence, and for
each agent id the tick values of its records are non-decreasing in emission
order. -/
theorem C7_record_keys (agents : List Agent) (d : ℕ) (g : Graph)
    (rng : ℕ → ℕ → ℚ) (H : (agents.map (fun a => a.id)).Nodup) :
    ((runTicks agents d g rng).map (fun r => (r.tick, r.agent_id))).Nodup
    ∧ ∀ x : String,
        (((runTicks agents d g rng).filter (fun r => r.agent_id == x)).map
          (fun r => r.tick)).Pairwise (· ≤ ·) := by
  constructor
  · exact runTicksFrom_pairs_nodup g d rng d 0 (fun _ => 0) agents H
  · intro x
    have hs : ((runTicks agents d g rng).filter (fun r => r.agent_id == x)).Sublist
        (runTicks agents d g rng) := List.filter_sublist _
    exact List.Pairwise.sublist (hs.map (fun r => r.tick))
      (runTicksFrom_tick_sorted g d rng d 0 (fun _ => 0) agents)

/-- C7 witness: concrete run with one pedestrian over two ticks. -/
theorem C7_record_keys_witness :
    ((runTicks [wPed] 2 gEmpty (fun _ _ => 0)).map (fun r => (r.tick, r.agent_id))).Nodup
    ∧ (((runTicks [wPed] 2 gEmpty (fun _ _ => 0)).filter
        (fun r => r.agent_id == "p_0")).map (fun r => r.tick)).Pairwise (· ≤ ·) :=
  have h := C7_record_keys [wPed] 2 gEmpty (fun _ _ => 0) (by decide)
  ⟨h.1, h.2 "p_0"⟩

/-! Section: C8: step-index invariant and no records after deactivation -/

/-- C8: (i) a freshly constructed agent with a non-empty path satisfies
`currentStepIndex < len(path)`; (ii) the per-agent tick-loop body preserves
that invariant; (iii) an inactive agent is left untouched by the loop body
and produces no record; (iv) consequently, if every agent carrying a given
id is inactive, no later record of any remaining tick carries that id. -/
theorem C8_invariants (idStr ty : String) (path0 : List ℕ) (coords0 : List (ℚ × ℚ))
    (g : Graph) (dur : ℕ) (occ : ℕ × ℕ → ℚ) (i : ℕ) (r : ℚ) (a : Agent)
    (rng : ℕ → ℕ → ℚ) (i0 n : ℕ) (occ0 : ℕ × ℕ → ℚ) (agents : List Agent) (x : String)
    (hpath : path0 ≠ [])
    (hinv : a.currentStep < a.path.length)
    (hx : ∀ b ∈ agents, b.id = x → b.active = false) :
    (mkAgent idStr path0 coords0 ty).currentStep < path0.length
    ∧ (processAgent g dur occ i r a).1.currentStep
        < (processAgent g dur occ i r a).1.path.length
    ∧ (a.active = false → processAgent g dur occ i r a = (a, none))
    ∧ (runTicksFrom g dur rng i0 n occ0 agents).2.filter
        (fun rec => rec.agent_id == x) = [] := by
  refine ⟨?_, processAgent_csLt g dur occ i r a hinv,
    processAgent_inactive g dur occ i r a, ?_⟩
  · show (0:ℕ) < path0.length
    exact List.length_pos.mpr hpath
  · rw [List.filter_eq_nil_iff]
    intro rec hrec
    have := runTicksFrom_no_id g dur rng n i0 occ0 agents x hx rec hrec
    simpa using this

/-- A degenerate (inactive, single-node-path) agent for the C8 witness. -/
def degenAgent : Agent :=
  agentOfResult { id := "d0", path := [5], coords := [(0, 0)], type := "Pedestrian" }

/-- C8 witness: concrete instantiation at a fresh two-node agent, an inactive
degenerate agent, and a one-tick run containing only that inactive agent. -/
theorem C8_invariants_witness :
    (mkAgent "a0" [1, 2] [(0, 0), (0, 1)] "Vehicle").currentStep < ([1, 2] : List ℕ).length
    ∧ (processAgent gEmpty 5 (fun _ => 0) 0 0 degenAgent).1.currentStep
        < (processAgent gEmpty 5 (fun _ => 0) 0 0 degenAgent).1.path.length
    ∧ processAgent gEmpty 5 (fun _ => 0) 0 0 degenAgent = (degenAgent, none)
    ∧ (runTicksFrom gEmpty 5 (fun _ _ => 0) 0 1 (fun _ => 0) [degenAgent]).2.filter
        (fun rec => rec.agent_id == "d0") = [] :=
  have h := C8_invariants "a0" "Vehicle" [1, 2] [(0, 0), (0, 1)] gEmpty 5 (fun _ => 0) 0 0
    degenAgent (fun _ _ => 0) 0 1 (fun _ => 0) [degenAgent] "d0"
    (by decide) (by decide) (by decide)
  ⟨h.1, h.2.1, h.2.2.1 (by decide), h.2.2.2⟩
